import Mathlib

/-!
Verification of the payroll export engine (Payrollv2.py).

This file shallowly embeds the pure computational core of the payroll
export program: the monthly pay-period calculator, the shift classifier,
the on-call reconciler, the fixed-hours proration, the pay-preview
computation, and the payroll emission filter.  Machine floats are
modelled as exact rationals; Python `round(x, 2)` is modelled as
round-half-to-even at two decimal places; Python dicts keyed by ids are
modelled as total functions with a zero/none default; JSON fields that
may be absent are modelled as `Option`.
-/

namespace Payroll

/-- Round-half-to-even to an integer, the semantics of Python `round`
on an exact value (float representation error is not modelled). -/
def roundHalfEven (q : ℚ) : ℤ :=
  if q - (⌊q⌋ : ℚ) < 1/2 then ⌊q⌋
  else if 1/2 < q - (⌊q⌋ : ℚ) then ⌊q⌋ + 1
  else if ⌊q⌋ % 2 = 0 then ⌊q⌋ else ⌊q⌋ + 1

/-- Python `round(q, 2)`: round-half-to-even at two decimal places. -/
def round2 (q : ℚ) : ℚ := ((roundHalfEven (q * 100) : ℚ)) / 100

/-- Payrollv2.py line 20: `UK_MINIMUM_WAGE = 12.21` (Rate 2 for overtime). -/
def UK_MINIMUM_WAGE : ℚ := 1221/100

/-- Payrollv2.py line 21: `ON_CALL_ROLE_NAME = "On-Call"`. -/
def ON_CALL_ROLE_NAME : String := "On-Call"

/-- Payrollv2.py line 22: `ON_CALL_FLAT_RATE = 15.00` (per shift). -/
def ON_CALL_FLAT_RATE : ℚ := 15

/-- A calendar date as `datetime.date` holds it. -/
structure Date where
  year : Int
  month : Int
  day : Int
deriving DecidableEq, Repr

/-- Gregorian leap-year rule used by `datetime.date`. -/
def isLeapYear (y : Int) : Bool := (y % 4 == 0 && y % 100 != 0) || (y % 400 == 0)

/-- Number of days in a month, as `datetime.date` validates it. -/
def daysInMonth (y m : Int) : Int :=
  if m = 2 then (if isLeapYear y then 29 else 28)
  else if m = 4 ∨ m = 6 ∨ m = 9 ∨ m = 11 then 30
  else 31

/-- Validity of a `datetime.date(y, m, d)` construction: Python's
`datetime` accepts years MINYEAR = 1 through MAXYEAR = 9999 and raises
`ValueError` otherwise. -/
def validDate (y m d : Int) : Prop :=
  1 ≤ y ∧ y ≤ 9999 ∧ 1 ≤ m ∧ m ≤ 12 ∧ 1 ≤ d ∧ d ≤ daysInMonth y m

instance (y m d : Int) : Decidable (validDate y m d) := by
  unfold validDate; infer_instance

/-- `datetime.date(y, m, d)` with the `ValueError` modelled as `none`. -/
def mkDate (y m d : Int) : Option Date :=
  if validDate y m d then some ⟨y, m, d⟩ else none

/-- Payrollv2.py lines 26-50 `get_monthly_payroll_period`: the period
from the 11th of the given month to the 10th of the next month; a
`ValueError` on either constructed date makes it return no period
(the source returns `(None, None)` after `st.error`). -/
def get_monthly_payroll_period (year month : Int) : Option (Date × Date) :=
  match mkDate year month 11 with
  | none => none
  | some start_date =>
    let next_month : Int := if month = 12 then 1 else month + 1
    let next_year : Int := if month = 12 then year + 1 else year
    match mkDate next_year next_month 10 with
    | none => none
    | some end_date => some (start_date, end_date)

/-- Payrollv2.py lines 60-67, the `today.day <= 10` branch of
`get_default_payroll_period`: target the previous month, with year
decrement in January. -/
def defaultTargetBranchLe10 (today : Date) : Int × Int :=
  if today.month = 1 then (today.year - 1, 12) else (today.year, today.month - 1)

/-- Payrollv2.py lines 68-75, the `today.day > 10` branch of
`get_default_payroll_period` (textually identical to the other branch). -/
def defaultTargetBranchGt10 (today : Date) : Int × Int :=
  if today.month = 1 then (today.year - 1, 12) else (today.year, today.month - 1)

/-- Payrollv2.py lines 52-77 `get_default_payroll_period`, with `today`
made an explicit argument. -/
def get_default_payroll_period (today : Date) : Option (Date × Date) :=
  let target := if today.day ≤ 10 then defaultTargetBranchLe10 today
                else defaultTargetBranchGt10 today
  get_monthly_payroll_period target.1 target.2

/-- Payrollv2.py lines 564-583 `calculate_fixed_hours`: prorate weekly
contracted hours over the period; `//` and `%` on a positive number of
days agree with Python's floor semantics, written here as `fdiv`/`fmod`. -/
def calculate_fixed_hours (weekly_hours : ℚ) (period_days : Int) : ℚ :=
  if weekly_hours ≤ 0 ∨ period_days ≤ 0 then 0
  else
    let full_weeks : Int := period_days.fdiv 7
    let remainder_days : Int := period_days.fmod 7
    let full_weeks_total : ℚ := (full_weeks : ℚ) * weekly_hours
    let proportional_remainder : ℚ := ((remainder_days : ℚ) / 7) * weekly_hours
    round2 (full_weeks_total + proportional_remainder)

/-- One raw shift record as returned by the shifts endpoint; JSON fields
that can be absent (`None`) are `Option`. `minutes_break` models
`shift.get("minutes_break", 0)` before the `or 0` coalescing. -/
structure RawShift where
  id : Option Int
  start_time : Option Int
  end_time : Option Int
  minutes_break : Option Int
  role : Option Int
deriving DecidableEq, Repr

/-- An On-Call shift stub as stored by `calculate_shift_hours_by_role`
(Payrollv2.py lines 372-377). -/
structure OnCallStub where
  shift_id : Option Int
  start_time : Int
  end_time : Int
  minutes_break : Int
deriving DecidableEq, Repr

/-- The accumulator of `calculate_shift_hours_by_role`: running second
counts and the collected On-Call stubs.  The Python dict
`role_hours[role_id]['seconds']` is modelled as a total function from
role id to seconds with default 0 (the rate and name it also stores are
determined by the role id and do not affect routing). -/
structure ClassifierState where
  total_seconds : Int
  base_rate_seconds : Int
  role_seconds : Int → Int
  on_call_shifts : List OnCallStub

/-- The stub appended for an On-Call shift (Payrollv2.py lines 372-377);
`st`/`en` are the timestamps already known to be present. -/
def mkStub (sh : RawShift) (st en : Int) : OnCallStub :=
  { shift_id := sh.id, start_time := st, end_time := en,
    minutes_break := sh.minutes_break.getD 0 }

/-- One iteration of the shift loop in `calculate_shift_hours_by_role`
(Payrollv2.py lines 352-396).  `rn` is the role-name resolver
(`get_role_name` through the `role_id_to_name` cache), `rr` the
employee's `role_rates` dict as a partial map.  `minutes_break or 0`
is `Option.getD 0`; the Python truthiness test `if role_id and role_id
in role_rates` is `role = some r` with `r ≠ 0` and `rr r` present. -/
def processShift (rn : Option Int → String) (rr : Int → Option ℚ)
    (s : ClassifierState) (sh : RawShift) : ClassifierState :=
  match sh.start_time, sh.end_time with
  | some st, some en =>
    if rn sh.role == ON_CALL_ROLE_NAME then
      { s with on_call_shifts := s.on_call_shifts ++ [mkStub sh st en] }
    else
      let net : Int := (en - st) - sh.minutes_break.getD 0 * 60
      let s1 : ClassifierState := { s with total_seconds := s.total_seconds + net }
      match sh.role with
      | some r =>
        if r != 0 && (rr r).isSome then
          { s1 with role_seconds := fun x => if x = r then s1.role_seconds x + net
                                             else s1.role_seconds x }
        else
          { s1 with base_rate_seconds := s1.base_rate_seconds + net }
      | none => { s1 with base_rate_seconds := s1.base_rate_seconds + net }
  | _, _ => s

/-- The whole shift loop of `calculate_shift_hours_by_role` from the
empty accumulator (a `None` shift list behaves as the empty list). -/
def classifyShifts (rn : Option Int → String) (rr : Int → Option ℚ)
    (shifts : List RawShift) : ClassifierState :=
  shifts.foldl (processShift rn rr) ⟨0, 0, fun _ => 0, []⟩

/-- Payrollv2.py lines 333-410 `calculate_shift_hours_by_role`: total
hours, base-rate hours, per-role hours (each rounded to 2 decimals at
conversion) and the On-Call stub list. -/
def calculate_shift_hours_by_role (rn : Option Int → String) (rr : Int → Option ℚ)
    (shifts : List RawShift) : ℚ × ℚ × (Int → ℚ) × List OnCallStub :=
  let s := classifyShifts rn rr shifts
  (round2 ((s.total_seconds : ℚ) / 3600),
   round2 ((s.base_rate_seconds : ℚ) / 3600),
   fun r => round2 ((s.role_seconds r : ℚ) / 3600),
   s.on_call_shifts)

/-- Both timestamps present (the explicit drop test, line 364). -/
def hasTimestamps (sh : RawShift) : Bool :=
  sh.start_time.isSome && sh.end_time.isSome

/-- `net_seconds = (end - start) - minutes_break * 60` (lines 383-384),
read off a shift whose timestamps are present. -/
def netSeconds (sh : RawShift) : Int :=
  (sh.end_time.getD 0 - sh.start_time.getD 0) - sh.minutes_break.getD 0 * 60

/-- The resolved role name equals the reserved On-Call name (line 368). -/
def isOnCallShift (rn : Option Int → String) (sh : RawShift) : Bool :=
  rn sh.role == ON_CALL_ROLE_NAME

/-- The truthiness-guarded role-rate membership test of line 388. -/
def hasCustomRate (rr : Int → Option ℚ) (sh : RawShift) : Bool :=
  match sh.role with
  | some r => r != 0 && (rr r).isSome
  | none => false

/-- The stub a shift yields, when it has both timestamps and resolves
to the On-Call role; `none` otherwise. -/
def toStubOpt (rn : Option Int → String) (sh : RawShift) : Option OnCallStub :=
  match sh.start_time, sh.end_time with
  | some st, some en =>
    if rn sh.role == ON_CALL_ROLE_NAME then some (mkStub sh st en) else none
  | _, _ => none

/-- A shift is routed to the base-rate bucket. -/
def routesToBase (rn : Option Int → String) (rr : Int → Option ℚ)
    (sh : RawShift) : Bool :=
  hasTimestamps sh && !(isOnCallShift rn sh) && !(hasCustomRate rr sh)

/-- A shift is routed to the custom-role bucket of role `r`. -/
def routesToCustomAt (rn : Option Int → String) (rr : Int → Option ℚ)
    (r : Int) (sh : RawShift) : Bool :=
  hasTimestamps sh && !(isOnCallShift rn sh) && hasCustomRate rr sh
    && (sh.role == some r)

/-- One attendance record as returned by the attendance endpoint. -/
structure AttendanceRecord where
  shift : Option Int
  in_time : Option Int
  out_time : Option Int
  deleted : Bool
deriving DecidableEq, Repr

/-- Python truthiness of an optional integer field (`if not shift_id`,
`if not in_time or not out_time`): present and non-zero. -/
def truthyInt : Option Int → Bool
  | none => false
  | some n => n != 0

/-- Membership of an attendance record's shift id in the `shift_lookup`
dict built at Payrollv2.py lines 451-461: stubs with a falsy `shift_id`
are skipped, so the keys are exactly the truthy stub ids. -/
def matchesStub (stubs : List OnCallStub) (a : AttendanceRecord) : Bool :=
  stubs.any (fun st => truthyInt st.shift_id && st.shift_id == a.shift)

/-- `hours_worked = (out_time - in_time) / 3600.0` (line 504), read off
a record whose clock times are present. -/
def attHours (a : AttendanceRecord) : ℚ :=
  ((a.out_time.getD 0 : ℚ) - (a.in_time.getD 0 : ℚ)) / 3600

/-- Payrollv2.py lines 412-421 `unix_to_datetime`, reduced to whether it
returns a datetime (`some`) or `None`: a falsy timestamp yields `None`;
otherwise success is governed by `convertible`, the behavior of the
external datetime library call `fromtimestamp(ts, utc).astimezone(London)`,
which raises for timestamps outside datetime's representable range (the
exception is caught and becomes `None`).  Like the role-name resolver,
the library call is a parameter of the embedding. -/
def unixToDatetimeIsSome (convertible : Int → Bool) (ts : Int) : Bool :=
  if ts = 0 then false else convertible ts

/-- An attendance record passes every `continue` guard of the loop at
Payrollv2.py lines 467-519: not soft-deleted, its shift id is an
On-Call lookup key, both clock times are truthy, both timestamps
survive the `unix_to_datetime` conversion of lines 496-501 (whose
failure is warned about and skips the record), and the duration is
strictly positive.  (The `> 12` test of line 516 only warns and never
skips.) -/
def onCallAccepted (convertible : Int → Bool) (stubs : List OnCallStub)
    (a : AttendanceRecord) : Bool :=
  !a.deleted && matchesStub stubs a && truthyInt a.in_time && truthyInt a.out_time
    && unixToDatetimeIsSome convertible (a.in_time.getD 0)
    && unixToDatetimeIsSome convertible (a.out_time.getD 0)
    && decide (0 < attHours a)

/-- The acceptance predicate exactly as claim C5 words it: non-deleted,
shift id matches a stub, both clock times present, strictly positive
duration — without the datetime-conversion guard of lines 496-501 that
the code also applies.  Kept only to compare the claim's formula with
the source's behavior. -/
def claimAccepted (stubs : List OnCallStub) (a : AttendanceRecord) : Bool :=
  !a.deleted && matchesStub stubs a && truthyInt a.in_time && truthyInt a.out_time
    && decide (0 < attHours a)

/-- Payrollv2.py lines 423-530 `calculate_on_call_hours`: worked hours
from matched attendance (rounded to 2 decimals at the end) and the
count of all assigned On-Call shifts.  `attendance = none` models the
fetch returning `None`; the falsy test `if not attendance_data` is also
true for an empty list.  `convertible` is the datetime-library
parameter of `unixToDatetimeIsSome`. -/
def calculate_on_call_hours (convertible : Int → Bool) (stubs : List OnCallStub)
    (attendance : Option (List AttendanceRecord)) : ℚ × Nat :=
  if stubs.isEmpty then (0, 0)
  else
    match attendance with
    | none => (0, stubs.length)
    | some atts =>
      if atts.isEmpty then (0, stubs.length)
      else
        let total : ℚ :=
          atts.foldl
            (fun acc a => if onCallAccepted convertible stubs a then acc + attHours a else acc) 0
        (round2 total, stubs.length)

/-- One employee's record in `payroll_data` (Payrollv2.py lines
1075-1092).  `custom_role_hours` is the dict of per-role hour/rate
data, modelled as the list of its (hours, rate) value pairs, which is
all the pay computation reads. -/
structure PayrollData where
  employee_name : String
  pay_type : String
  annual_salary : ℚ
  weekly_hours : ℚ
  total_hours : ℚ
  total_hours_display : ℚ
  fixed_hours : ℚ
  rate_1 : ℚ
  custom_role_hours : List (ℚ × ℚ)
  on_call_hours : ℚ
  on_call_shift_count : Nat
  holiday_days : ℚ
  holiday_hours : ℚ
  sickness_days : ℚ
deriving DecidableEq, Repr

/-- Payrollv2.py line 1122: `hours_worked = min(total_hours,
fixed_hours - on_call_hours)` — the "Hours" column of the preview. -/
def hoursWorked (d : PayrollData) : ℚ :=
  min d.total_hours (d.fixed_hours - d.on_call_hours)

/-- Payrollv2.py line 1125: `overtime_hrs = max(0, total_hours_display
- fixed_hours)`. -/
def overtimeHrs (d : PayrollData) : ℚ :=
  max 0 (d.total_hours_display - d.fixed_hours)

/-- Payrollv2.py lines 1133-1135: the summed custom-role pay. -/
def customRolePay (d : PayrollData) : ℚ :=
  (d.custom_role_hours.map (fun p => p.1 * p.2)).sum

/-- Payrollv2.py lines 1127-1141: the preview `total_pay`, branching on
salaried (`pay_type == 'annual'`) versus hourly. -/
def totalPay (overtime_rate : ℚ) (d : PayrollData) : ℚ :=
  if d.pay_type = "annual" then d.annual_salary / 12
  else
    hoursWorked d * d.rate_1
      + customRolePay d
      + d.on_call_hours * d.rate_1
      + (d.on_call_shift_count : ℚ) * ON_CALL_FLAT_RATE
      + overtimeHrs d * overtime_rate
      + d.holiday_hours * d.rate_1

/-- Payrollv2.py line 1074: the emission test guarding the append to
`payroll_data`. -/
def includeEmployee (total_hours holiday_hours holiday_days sickness_days
    on_call_hours : ℚ) : Bool :=
  decide (0 < total_hours) || decide (0 < holiday_hours) || decide (0 < holiday_days)
    || decide (0 < sickness_days) || decide (0 < on_call_hours)

/-- The set of employee records that reach the output, i.e. the loop of
lines 998-1092 restricted to its append decisions. -/
def payrollFilter (l : List PayrollData) : List PayrollData :=
  l.filter (fun d => includeEmployee d.total_hours d.holiday_hours d.holiday_days
    d.sickness_days d.on_call_hours)

/-- The worked example's employee record: rate 14/hr, 40 weekly hours,
160 fixed hours, 200 displayed hours of which 20 are on-call worked,
10 assigned on-call shifts, no custom roles, no holiday. -/
def dC1 : PayrollData :=
  { employee_name := "", pay_type := "hourly", annual_salary := 0, weekly_hours := 40,
    total_hours := 180, total_hours_display := 200, fixed_hours := 160, rate_1 := 14,
    custom_role_hours := [], on_call_hours := 20, on_call_shift_count := 10,
    holiday_days := 0, holiday_hours := 0, sickness_days := 0 }

/-- Employee record for the C2 witness: 50 on-call worked hours against
only 40 fixed hours, so the base-hours bucket goes negative. -/
def dW2 : PayrollData :=
  { employee_name := "B", pay_type := "hourly", annual_salary := 0, weekly_hours := 10,
    total_hours := 10, total_hours_display := 60, fixed_hours := 40, rate_1 := 14,
    custom_role_hours := [], on_call_hours := 50, on_call_shift_count := 5,
    holiday_days := 0, holiday_hours := 0, sickness_days := 0 }

/-- Employee record for the C3 witness: only holiday hours nonzero. -/
def dW3 : PayrollData :=
  { employee_name := "A", pay_type := "hourly", annual_salary := 0, weekly_hours := 40,
    total_hours := 0, total_hours_display := 0, fixed_hours := 160, rate_1 := 14,
    custom_role_hours := [], on_call_hours := 0, on_call_shift_count := 0,
    holiday_days := 0, holiday_hours := 5, sickness_days := 0 }

/-- Record for the C4 witness: salaried with nonzero hour buckets. -/
def dW4 : PayrollData :=
  { employee_name := "C", pay_type := "annual", annual_salary := 30000, weekly_hours := 40,
    total_hours := 180, total_hours_display := 200, fixed_hours := 160, rate_1 := 14,
    custom_role_hours := [(10, 20)], on_call_hours := 20, on_call_shift_count := 10,
    holiday_days := 1, holiday_hours := 8, sickness_days := 2 }

/-- Concrete instantiation of the datetime-conversion predicate used by
the C3/C5/C7 theorems' concrete instances: succeed exactly on the
integer timestamps `datetime.fromtimestamp(ts, tz=utc)` accepts (UTC
year 1 through year 9999); 10^15 lies far outside this window, the
source's warn-and-skip path. -/
def convW : Int → Bool := fun ts => -62135596800 ≤ ts && ts ≤ 253402300799

/-- Concrete stub list for the C5 witness: one 13-hour On-Call shift. -/
def stubsW5 : List OnCallStub := [⟨some 11, 0, 46800, 0⟩]

/-- Concrete attendance record for the C5 witness: matched, non-deleted,
13-hour duration (exercising the over-12-hours still-included rule). -/
def attW5 : AttendanceRecord := ⟨some 11, some 3600, some 50400, false⟩

/-- Stub list for the C5 counterexample. -/
def stubsC5 : List OnCallStub := [⟨some 31, 0, 3600, 0⟩]

/-- Attendance record for the C5 counterexample: matched, non-deleted,
both clock times present, hugely positive duration — but the out time
10^15 is beyond datetime's representable range, so the code's
`unix_to_datetime` fails and the record is skipped, while the claim's
formula counts it. -/
def attC5 : AttendanceRecord := ⟨some 31, some 3600, some (10 ^ 15), false⟩

/-- Concrete resolver for the C6 witness: role 7 is the On-Call role,
role 5 has a name of its own, everything else resolves to "Care". -/
def rnW : Option Int → String :=
  fun r => if r == some 7 then "On-Call" else if r == some 5 then "Homecare" else "Care"

/-- Concrete rate overrides for the C6 witness: role 5 at a custom rate. -/
def rrW : Int → Option ℚ := fun r => if r == 5 then some 20 else none

/-- Concrete shift list for the C6 witness: an On-Call shift, a base
shift, a custom-role shift, and a shift missing its start timestamp. -/
def shiftsW : List RawShift :=
  [⟨some 101, some 0, some 7200, some 0, some 7⟩,
   ⟨some 102, some 0, some 3600, some 0, some 3⟩,
   ⟨some 103, some 0, some 1800, none, some 5⟩,
   ⟨some 104, none, some 1800, some 0, some 5⟩]

/-- Stub list for the C7 witness: one assigned on-call shift. -/
def stubsW7 : List OnCallStub := [⟨some 21, 0, 3600, 0⟩]

theorem roundHalfEven_eq_of_lt_half (q : ℚ) (f : ℤ) (h1 : (f : ℚ) ≤ q)
    (h2 : q - (f : ℚ) < 1/2) : roundHalfEven q = f := by
  have hf : ⌊q⌋ = f := Int.floor_eq_iff.2 ⟨h1, by linarith⟩
  unfold roundHalfEven
  rw [hf, if_pos h2]

theorem round2_eq_of_lt_half (q : ℚ) (f : ℤ) (h1 : (f : ℚ) ≤ q * 100)
    (h2 : q * 100 - (f : ℚ) < 1/2) : round2 q = (f : ℚ) / 100 := by
  unfold round2
  rw [roundHalfEven_eq_of_lt_half (q * 100) f h1 h2]

theorem round2_zero : round2 0 = 0 := by
  rw [round2_eq_of_lt_half 0 0 (by norm_num) (by norm_num)]
  norm_num

theorem round2_nonneg (q : ℚ) (h : 0 ≤ q) : 0 ≤ round2 q := by
  unfold round2 roundHalfEven
  have hq : (0 : ℚ) ≤ q * 100 := by positivity
  have hf : (0 : ℤ) ≤ ⌊q * 100⌋ := Int.floor_nonneg.2 hq
  split_ifs <;> positivity

theorem round2_ge_one (q : ℚ) (h : 1 ≤ q) : 1 ≤ round2 q := by
  unfold round2 roundHalfEven
  have hf : (100 : ℤ) ≤ ⌊q * 100⌋ := by
    rw [Int.le_floor]
    push_cast
    linarith
  have hfq : (100 : ℚ) ≤ (⌊q * 100⌋ : ℚ) := by exact_mod_cast hf
  split_ifs <;> rw [le_div_iff₀ (by norm_num : (0:ℚ) < 100)] <;> push_cast <;> linarith

theorem processShift_on_call_shifts (rn : Option Int → String) (rr : Int → Option ℚ)
    (s : ClassifierState) (sh : RawShift) :
    (processShift rn rr s sh).on_call_shifts
      = s.on_call_shifts ++ (toStubOpt rn sh).toList := by
  obtain ⟨i, tst, ten, mb, ro⟩ := sh
  cases tst with
  | none => simp [processShift, toStubOpt]
  | some st =>
    cases ten with
    | none => simp [processShift, toStubOpt]
    | some en =>
      by_cases h : (rn ro == ON_CALL_ROLE_NAME) = true
      · simp [processShift, toStubOpt, h]
      · rw [Bool.not_eq_true] at h
        cases ro with
        | none => simp [processShift, toStubOpt, h]
        | some r =>
          by_cases h2 : (r != 0 && (rr r).isSome) = true
          · simp [processShift, toStubOpt, h, h2]
          · rw [Bool.not_eq_true] at h2
            simp [processShift, toStubOpt, h, h2]

theorem processShift_base (rn : Option Int → String) (rr : Int → Option ℚ)
    (s : ClassifierState) (sh : RawShift) :
    (processShift rn rr s sh).base_rate_seconds
      = s.base_rate_seconds + (if routesToBase rn rr sh then netSeconds sh else 0) := by
  obtain ⟨i, tst, ten, mb, ro⟩ := sh
  cases tst with
  | none => simp [processShift, routesToBase, hasTimestamps]
  | some st =>
    cases ten with
    | none => simp [processShift, routesToBase, hasTimestamps]
    | some en =>
      by_cases h : (rn ro == ON_CALL_ROLE_NAME) = true
      · simp [processShift, routesToBase, hasTimestamps, isOnCallShift, h]
      · rw [Bool.not_eq_true] at h
        cases ro with
        | none =>
          simp [processShift, routesToBase, hasTimestamps, isOnCallShift,
            hasCustomRate, netSeconds, h]
        | some r =>
          by_cases h2 : (r != 0 && (rr r).isSome) = true
          · simp [processShift, routesToBase, hasTimestamps, isOnCallShift,
              hasCustomRate, h, h2]
          · rw [Bool.not_eq_true] at h2
            simp [processShift, routesToBase, hasTimestamps, isOnCallShift,
              hasCustomRate, netSeconds, h, h2]

theorem processShift_role (rn : Option Int → String) (rr : Int → Option ℚ)
    (s : ClassifierState) (sh : RawShift) (r : Int) :
    (processShift rn rr s sh).role_seconds r
      = s.role_seconds r + (if routesToCustomAt rn rr r sh then netSeconds sh else 0) := by
  obtain ⟨i, tst, ten, mb, ro⟩ := sh
  cases tst with
  | none => simp [processShift, routesToCustomAt, hasTimestamps]
  | some st =>
    cases ten with
    | none => simp [processShift, routesToCustomAt, hasTimestamps]
    | some en =>
      by_cases h : (rn ro == ON_CALL_ROLE_NAME) = true
      · simp [processShift, routesToCustomAt, hasTimestamps, isOnCallShift, h]
      · rw [Bool.not_eq_true] at h
        cases ro with
        | none =>
          simp [processShift, routesToCustomAt, hasTimestamps, isOnCallShift,
            hasCustomRate, h]
        | some r0 =>
          by_cases h2 : (r0 != 0 && (rr r0).isSome) = true
          · by_cases hr : r = r0
            · subst hr
              simp [processShift, routesToCustomAt, hasTimestamps, isOnCallShift,
                hasCustomRate, netSeconds, h, h2]
            · simp [processShift, routesToCustomAt, hasTimestamps, isOnCallShift,
                hasCustomRate, h, h2, hr, Ne.symm hr]
          · rw [Bool.not_eq_true] at h2
            simp [processShift, routesToCustomAt, hasTimestamps, isOnCallShift,
              hasCustomRate, h, h2]

theorem foldl_on_call_shifts (rn : Option Int → String) (rr : Int → Option ℚ) :
    ∀ (shifts : List RawShift) (s : ClassifierState),
      (shifts.foldl (processShift rn rr) s).on_call_shifts
        = s.on_call_shifts ++ shifts.filterMap (toStubOpt rn) := by
  intro shifts
  induction shifts with
  | nil => intro s; simp
  | cons sh rest ih =>
    intro s
    rw [List.foldl_cons, ih, processShift_on_call_shifts, List.filterMap_cons]
    cases toStubOpt rn sh <;> simp

theorem foldl_base (rn : Option Int → String) (rr : Int → Option ℚ) :
    ∀ (shifts : List RawShift) (s : ClassifierState),
      (shifts.foldl (processShift rn rr) s).base_rate_seconds
        = s.base_rate_seconds
            + ((shifts.filter (routesToBase rn rr)).map netSeconds).sum := by
  intro shifts
  induction shifts with
  | nil => intro s; simp
  | cons sh rest ih =>
    intro s
    rw [List.foldl_cons, ih, processShift_base, List.filter_cons]
    by_cases h : routesToBase rn rr sh = true
    · simp only [h, if_true, if_pos, List.map_cons, List.sum_cons]
      omega
    · rw [Bool.not_eq_true] at h
      simp [h]

theorem foldl_role (rn : Option Int → String) (rr : Int → Option ℚ) (r : Int) :
    ∀ (shifts : List RawShift) (s : ClassifierState),
      (shifts.foldl (processShift rn rr) s).role_seconds r
        = s.role_seconds r
            + ((shifts.filter (routesToCustomAt rn rr r)).map netSeconds).sum := by
  intro shifts
  induction shifts with
  | nil => intro s; simp
  | cons sh rest ih =>
    intro s
    rw [List.foldl_cons, ih, processShift_role, List.filter_cons]
    by_cases h : routesToCustomAt rn rr r sh = true
    · simp only [h, if_true, if_pos, List.map_cons, List.sum_cons]
      omega
    · rw [Bool.not_eq_true] at h
      simp [h]

/-- C6: every shift with both timestamps present is routed to exactly
one of {on_call_shift_stubs, its custom-role bucket, the base bucket}:
the stub list is exactly the in-order image of the shifts resolving to
the reserved "On-Call" role (each appearing exactly once), the base
and per-role second totals sum exactly the non-On-Call shifts (so an
On-Call shift contributes nothing to them even when its role has a
rate override, which the On-Call branch skips before the rate test),
the three routing destinations are mutually exclusive and exhaustive
for time-stamped shifts, and a shift missing either timestamp is
excluded from all three. -/
theorem spec_C6_shift_routing (rn : Option Int → String) (rr : Int → Option ℚ)
    (shifts : List RawShift) :
    (calculate_shift_hours_by_role rn rr shifts).2.2.2
        = shifts.filterMap (toStubOpt rn)
  ∧ (classifyShifts rn rr shifts).base_rate_seconds
        = ((shifts.filter (routesToBase rn rr)).map netSeconds).sum
  ∧ (∀ r : Int, (classifyShifts rn rr shifts).role_seconds r
        = ((shifts.filter (routesToCustomAt rn rr r)).map netSeconds).sum)
  ∧ (∀ sh : RawShift, hasTimestamps sh = true →
        (isOnCallShift rn sh).toNat
          + (!(isOnCallShift rn sh) && hasCustomRate rr sh).toNat
          + (!(isOnCallShift rn sh) && !(hasCustomRate rr sh)).toNat = 1)
  ∧ (∀ sh : RawShift, hasTimestamps sh = false → toStubOpt rn sh = none) := by
  refine ⟨?_, ?_, ?_, ?_, ?_⟩
  · show (classifyShifts rn rr shifts).on_call_shifts = _
    rw [classifyShifts, foldl_on_call_shifts]
    simp
  · rw [classifyShifts, foldl_base]
    simp
  · intro r
    rw [classifyShifts, foldl_role]
    simp
  · intro sh _
    cases h1 : isOnCallShift rn sh <;> cases h2 : hasCustomRate rr sh <;> simp
  · intro sh hts
    obtain ⟨i, tst, ten, mb, ro⟩ := sh
    cases tst with
    | none => simp [toStubOpt]
    | some st =>
      cases ten with
      | none => simp [toStubOpt]
      | some en => simp [hasTimestamps] at hts

theorem spec_C6_witness :
    (calculate_shift_hours_by_role rnW rrW shiftsW).2.2.2 = [⟨some 101, 0, 7200, 0⟩]
  ∧ (classifyShifts rnW rrW shiftsW).base_rate_seconds = 3600
  ∧ (classifyShifts rnW rrW shiftsW).role_seconds 5 = 1800
  ∧ (isOnCallShift rnW ⟨some 101, some 0, some 7200, some 0, some 7⟩).toNat
      + (!(isOnCallShift rnW ⟨some 101, some 0, some 7200, some 0, some 7⟩)
          && hasCustomRate rrW ⟨some 101, some 0, some 7200, some 0, some 7⟩).toNat
      + (!(isOnCallShift rnW ⟨some 101, some 0, some 7200, some 0, some 7⟩)
          && !(hasCustomRate rrW ⟨some 101, some 0, some 7200, some 0, some 7⟩)).toNat
      = 1 := by
  have h := spec_C6_shift_routing rnW rrW shiftsW
  exact ⟨h.1.trans (by decide), h.2.1.trans (by decide), (h.2.2.1 5).trans (by decide),
    h.2.2.2.1 ⟨some 101, some 0, some 7200, some 0, some 7⟩ (by decide)⟩

theorem foldl_filter_sum {α : Type} (p : α → Bool) (h : α → ℚ) :
    ∀ (l : List α) (c : ℚ),
      l.foldl (fun acc a => if p a then acc + h a else acc) c
        = c + ((l.filter p).map h).sum := by
  intro l
  induction l with
  | nil => intro c; simp
  | cons a t ih =>
    intro c
    rw [List.foldl_cons]
    by_cases hp : p a = true
    · rw [if_pos hp, ih, List.filter_cons_of_pos hp]
      simp [add_assoc]
    · rw [Bool.not_eq_true] at hp
      rw [if_neg (by simp [hp]), ih, List.filter_cons_of_neg (by simp [hp])]

theorem calc_on_call_eq (convertible : Int → Bool) (stubs : List OnCallStub)
    (attendance : Option (List AttendanceRecord)) :
    calculate_on_call_hours convertible stubs attendance
      = (round2 ((((attendance.getD []).filter
            (onCallAccepted convertible stubs)).map attHours).sum),
         stubs.length) := by
  unfold calculate_on_call_hours
  cases stubs with
  | nil =>
    have hacc : ∀ a, onCallAccepted convertible [] a = false := by
      intro a; simp [onCallAccepted, matchesStub]
    cases attendance with
    | none => simp [round2_zero]
    | some atts =>
      have hfil : atts.filter (onCallAccepted convertible []) = [] :=
        List.filter_eq_nil_iff.2 (fun a _ => by simp [hacc])
      simp [hfil, round2_zero]
  | cons s0 srest =>
    cases attendance with
    | none => simp [round2_zero]
    | some atts =>
      cases atts with
      | nil => simp [round2_zero]
      | cons a0 arest =>
        rw [if_neg (by simp)]
        dsimp only
        rw [if_neg (by simp)]
        rw [foldl_filter_sum]
        simp

/-- C5 counterexample: at one matched, non-deleted attendance record
with both clock times present and strictly positive duration but an
out time of 10^15 — beyond datetime's representable range, so the
source's `unix_to_datetime` raises and the record is skipped with a
warning (lines 496-501) — the code returns 0 worked hours while the
claim's "exactly those records" formula (without the conversion guard)
yields a huge positive total, refuting the claim as stated. -/
theorem spec_C5_counterexample :
    claimAccepted stubsC5 attC5 = true
  ∧ (calculate_on_call_hours convW stubsC5 (some [attC5])).1 = 0
  ∧ (calculate_on_call_hours convW stubsC5 (some [attC5])).1
      ≠ round2 ((([attC5].filter (claimAccepted stubsC5)).map attHours).sum) := by
  have hca : claimAccepted stubsC5 attC5 = true := by
    simp only [claimAccepted, stubsC5, attC5, matchesStub, truthyInt, attHours]
    norm_num
  have hacc : onCallAccepted convW stubsC5 attC5 = false := by
    have hconv : unixToDatetimeIsSome convW ((attC5.out_time).getD 0) = false := by decide
    simp [onCallAccepted, hconv]
  have h0 : (calculate_on_call_hours convW stubsC5 (some [attC5])).1 = 0 := by
    rw [calc_on_call_eq]
    simp [hacc, round2_zero]
  have hfil : [attC5].filter (claimAccepted stubsC5) = [attC5] := by
    simp [hca]
  have hge : 1 ≤ round2 ((([attC5].filter (claimAccepted stubsC5)).map attHours).sum) := by
    rw [hfil]
    simp only [List.map_cons, List.map_nil, List.sum_cons, List.sum_nil, add_zero]
    apply round2_ge_one
    simp only [attHours, attC5, Option.getD_some]
    norm_num
  refine ⟨hca, h0, ?_⟩
  rw [h0]
  intro hcontra
  rw [← hcontra] at hge
  linarith

/-- C5 (amended): `assigned_shift_count` is the number of stubs
regardless of attendance matching, and `worked_hours` is the
2-decimal-rounded sum of `(out_time - in_time)/3600` over exactly the
non-deleted attendance records whose shift id matches a stub, with
both clock times present, both timestamps surviving the
`unix_to_datetime` conversion (which fails, warning and skipping the
record, for timestamps outside datetime's representable range), and
strictly positive duration; a duration above 12 hours still passes
every acceptance guard (it is only warned about), and anomalous
records are merely skipped — the function is total and never fails. -/
theorem spec_C5_on_call_reconciliation (convertible : Int → Bool)
    (stubs : List OnCallStub) (attendance : Option (List AttendanceRecord)) :
    calculate_on_call_hours convertible stubs attendance
      = (round2 ((((attendance.getD []).filter
            (onCallAccepted convertible stubs)).map attHours).sum),
         stubs.length)
  ∧ (∀ a : AttendanceRecord, a.deleted = false → matchesStub stubs a = true →
      truthyInt a.in_time = true → truthyInt a.out_time = true →
      unixToDatetimeIsSome convertible (a.in_time.getD 0) = true →
      unixToDatetimeIsSome convertible (a.out_time.getD 0) = true →
      12 < attHours a → onCallAccepted convertible stubs a = true) := by
  refine ⟨calc_on_call_eq convertible stubs attendance, ?_⟩
  intro a hd hm hin hout hcin hcout h12
  simp only [onCallAccepted, hd, hm, hin, hout, hcin, hcout, Bool.not_false,
    Bool.true_and, Bool.and_true, Bool.and_eq_true, decide_eq_true_eq]
  linarith

theorem spec_C5_witness :
    calculate_on_call_hours convW stubsW5 (some [attW5]) = (13, 1)
  ∧ onCallAccepted convW stubsW5 attW5 = true := by
  have h := spec_C5_on_call_reconciliation convW stubsW5 (some [attW5])
  have h13 : attHours attW5 = 13 := by
    simp only [attHours, attW5]
    norm_num
  have hacc : onCallAccepted convW stubsW5 attW5 = true :=
    h.2 attW5 rfl (by decide) (by decide) (by decide) (by decide) (by decide)
      (by rw [h13]; norm_num)
  refine ⟨?_, hacc⟩
  rw [h.1]
  have hfil : ([attW5].filter (onCallAccepted convW stubsW5)) = [attW5] := by
    simp [hacc]
  simp only [Option.getD_some, hfil, List.map_cons, List.map_nil, List.sum_cons,
    List.sum_nil, h13, add_zero]
  rw [round2_eq_of_lt_half 13 1300 (by norm_num) (by norm_num)]
  norm_num
  rfl

/-- The worked on-call hours are never negative: every accepted record
contributes strictly positive hours. -/
theorem calc_on_call_nonneg (convertible : Int → Bool) (stubs : List OnCallStub)
    (attendance : Option (List AttendanceRecord)) :
    0 ≤ (calculate_on_call_hours convertible stubs attendance).1 := by
  rw [calc_on_call_eq]
  apply round2_nonneg
  apply List.sum_nonneg
  intro x hx
  simp only [List.mem_map] at hx
  obtain ⟨a, ha, rfl⟩ := hx
  rw [List.mem_filter] at ha
  have := ha.2
  simp only [onCallAccepted, Bool.and_eq_true, decide_eq_true_eq] at this
  exact le_of_lt this.2

theorem includeEmployee_iff (th hh hd sd oc : ℚ) (hnn : 0 ≤ oc) :
    includeEmployee th hh hd sd oc = true
      ↔ (0 < th + oc ∨ 0 < hh ∨ 0 < hd ∨ 0 < sd ∨ 0 < oc) := by
  simp only [includeEmployee, Bool.or_eq_true, decide_eq_true_eq]
  constructor
  · rintro ((((h|h)|h)|h)|h)
    · exact Or.inl (by linarith)
    · exact Or.inr (Or.inl h)
    · exact Or.inr (Or.inr (Or.inl h))
    · exact Or.inr (Or.inr (Or.inr (Or.inl h)))
    · exact Or.inr (Or.inr (Or.inr (Or.inr h)))
  · rintro (h|h|h|h|h)
    · by_cases hoc : 0 < oc
      · exact Or.inr hoc
      · exact Or.inl (Or.inl (Or.inl (Or.inl (by linarith))))
    · exact Or.inl (Or.inl (Or.inl (Or.inr h)))
    · exact Or.inl (Or.inl (Or.inr h))
    · exact Or.inl (Or.inr h)
    · exact Or.inr h

/-- C3: among the processed employees, a record reaches the payroll
output iff total_hours_display > 0 or holiday_hours > 0 or
holiday_days > 0 or sickness_days > 0 or on-call worked hours > 0; an
all-zero employee is excluded entirely.  The source's test (line 1074)
uses `total_hours` (the non-on-call hours) instead of the display
total, which is equivalent because the on-call worked hours added at
line 1082 are never negative. -/
theorem spec_C3_emission (l : List PayrollData) (e : PayrollData)
    (convertible : Int → Bool) (stubs : List OnCallStub)
    (attendance : Option (List AttendanceRecord))
    (hoc : e.on_call_hours = (calculate_on_call_hours convertible stubs attendance).1)
    (hdisp : e.total_hours_display = e.total_hours + e.on_call_hours) :
    e ∈ payrollFilter l
      ↔ e ∈ l ∧ (0 < e.total_hours_display ∨ 0 < e.holiday_hours
          ∨ 0 < e.holiday_days ∨ 0 < e.sickness_days ∨ 0 < e.on_call_hours) := by
  have hnn : 0 ≤ e.on_call_hours := hoc ▸ calc_on_call_nonneg convertible stubs attendance
  rw [payrollFilter, List.mem_filter,
    includeEmployee_iff e.total_hours e.holiday_hours e.holiday_days e.sickness_days
      e.on_call_hours hnn, hdisp]

theorem spec_C3_witness : dW3 ∈ payrollFilter [dW3] := by
  refine (spec_C3_emission [dW3] dW3 convW [] none rfl ?_).mpr
    ⟨List.mem_singleton.2 rfl, ?_⟩
  · show (0 : ℚ) = 0 + 0
    norm_num
  · right; left
    show (0 : ℚ) < 5
    norm_num

/-- C7: an employee whose only payroll activity is assigned on-call
shifts with no accepted attendance gets worked_hours = 0 with a
positive assigned count, and the emission test (which never consults
the assigned count) excludes them, so the positive flat-rate pay
count * 15.00 never reaches the output. -/
theorem spec_C7_assigned_only_excluded (convertible : Int → Bool)
    (stubs : List OnCallStub) (attendance : Option (List AttendanceRecord))
    (hne : stubs ≠ [])
    (hrej : (attendance.getD []).filter (onCallAccepted convertible stubs) = []) :
    (calculate_on_call_hours convertible stubs attendance).1 = 0
  ∧ 0 < (calculate_on_call_hours convertible stubs attendance).2
  ∧ includeEmployee 0 0 0 0 (calculate_on_call_hours convertible stubs attendance).1 = false
  ∧ 0 < ((calculate_on_call_hours convertible stubs attendance).2 : ℚ) * ON_CALL_FLAT_RATE := by
  have h1 : (calculate_on_call_hours convertible stubs attendance).1 = 0 := by
    rw [calc_on_call_eq]
    simp [hrej, round2_zero]
  have h2 : 0 < (calculate_on_call_hours convertible stubs attendance).2 := by
    rw [calc_on_call_eq]
    simpa [List.length_pos] using hne
  refine ⟨h1, h2, ?_, ?_⟩
  · rw [h1]
    simp [includeEmployee]
  · have hc : (0 : ℚ) < ((calculate_on_call_hours convertible stubs attendance).2 : ℚ) := by
      exact_mod_cast h2
    exact mul_pos hc (by norm_num [ON_CALL_FLAT_RATE])

theorem spec_C7_witness :
    (calculate_on_call_hours convW stubsW7 none).1 = 0
  ∧ includeEmployee 0 0 0 0 (calculate_on_call_hours convW stubsW7 none).1 = false := by
  have h := spec_C7_assigned_only_excluded convW stubsW7 none (by simp [stubsW7]) (by simp)
  exact ⟨h.1, h.2.2.1⟩

/-- C1: the worked example yields hours_at_base = 140, overtime = 40,
and under the hourly formula total_pay = 140*14 + 0 + 20*14 + 10*15 +
40*12.21 + 0 = 2878.40. -/
theorem spec_C1_worked_example :
    hoursWorked dC1 = 140
  ∧ overtimeHrs dC1 = 40
  ∧ totalPay UK_MINIMUM_WAGE dC1
      = 140 * dC1.rate_1 + customRolePay dC1 + 20 * dC1.rate_1
        + 10 * ON_CALL_FLAT_RATE + 40 * UK_MINIMUM_WAGE + 0 * dC1.rate_1
  ∧ totalPay UK_MINIMUM_WAGE dC1 = 14392/5 := by
  have h1 : hoursWorked dC1 = 140 := by
    rw [hoursWorked]
    norm_num [dC1, min_def]
  have h2 : overtimeHrs dC1 = 40 := by
    rw [overtimeHrs]
    norm_num [dC1, max_def]
  have hc : customRolePay dC1 = 0 := by simp [customRolePay, dC1]
  have hne : ¬(dC1.pay_type = "annual") := by decide
  have hpay : totalPay UK_MINIMUM_WAGE dC1
      = hoursWorked dC1 * dC1.rate_1 + customRolePay dC1
        + dC1.on_call_hours * dC1.rate_1
        + (dC1.on_call_shift_count : ℚ) * ON_CALL_FLAT_RATE
        + overtimeHrs dC1 * UK_MINIMUM_WAGE + dC1.holiday_hours * dC1.rate_1 := by
    rw [totalPay, if_neg hne]
  refine ⟨h1, h2, ?_, ?_⟩
  · rw [hpay, h1, h2, hc]
    norm_num [dC1]
  · rw [hpay, h1, h2, hc]
    norm_num [dC1, UK_MINIMUM_WAGE, ON_CALL_FLAT_RATE]

/-- C2: hours_at_base is min(total_hours_display - on_call_hours,
fixed_hours - on_call_hours) with no clamping at zero: when on-call
worked hours exceed fixed hours the value is negative, and its additive
contribution hours_at_base * rate_1 to the hourly total pay is then
negative. -/
theorem spec_C2_hours_at_base (d : PayrollData) (overtime_rate : ℚ)
    (hdisp : d.total_hours_display = d.total_hours + d.on_call_hours) :
    hoursWorked d
        = min (d.total_hours_display - d.on_call_hours) (d.fixed_hours - d.on_call_hours)
  ∧ (d.fixed_hours < d.on_call_hours → hoursWorked d < 0)
  ∧ (d.fixed_hours < d.on_call_hours → 0 < d.rate_1 → hoursWorked d * d.rate_1 < 0)
  ∧ (d.pay_type ≠ "annual" →
      totalPay overtime_rate d
        = hoursWorked d * d.rate_1
          + (customRolePay d + d.on_call_hours * d.rate_1
             + (d.on_call_shift_count : ℚ) * ON_CALL_FLAT_RATE
             + overtimeHrs d * overtime_rate + d.holiday_hours * d.rate_1)) := by
  have hle : hoursWorked d ≤ d.fixed_hours - d.on_call_hours := by
    rw [hoursWorked]
    exact min_le_right _ _
  have hneg : d.fixed_hours < d.on_call_hours → hoursWorked d < 0 := by
    intro h
    linarith
  refine ⟨?_, hneg, ?_, ?_⟩
  · rw [hoursWorked, hdisp]
    congr 1
    ring
  · intro h hr
    exact mul_neg_of_neg_of_pos (hneg h) hr
  · intro hne
    rw [totalPay, if_neg hne]
    ring

theorem spec_C2_witness :
    hoursWorked dW2 < 0 ∧ hoursWorked dW2 * dW2.rate_1 < 0 := by
  have h := spec_C2_hours_at_base dW2 UK_MINIMUM_WAGE
    (by show (60 : ℚ) = 10 + 50; norm_num)
  exact ⟨h.2.1 (by show (40 : ℚ) < 50; norm_num),
         h.2.2.1 (by show (40 : ℚ) < 50; norm_num) (by show (0 : ℚ) < 14; norm_num)⟩

/-- C4: a salaried (pay_type = "annual") employee's total pay is
annual_salary / 12, whatever every computed hour bucket holds
(the hourly arm of the computation is never consulted). -/
theorem spec_C4_salaried (d : PayrollData) (overtime_rate : ℚ)
    (h : d.pay_type = "annual") :
    totalPay overtime_rate d = d.annual_salary / 12 := by
  rw [totalPay, if_pos h]

theorem spec_C4_witness : totalPay UK_MINIMUM_WAGE dW4 = 2500 := by
  rw [spec_C4_salaried dW4 UK_MINIMUM_WAGE rfl]
  show (30000 : ℚ) / 12 = 2500
  norm_num

/-- C8: calculate_fixed_hours returns 0 when either argument is
non-positive, otherwise (period_days // 7) * weekly_hours +
((period_days % 7) / 7) * weekly_hours rounded to 2 decimals; at
weekly_hours = 37.5 and period_days = 31 this is 4*37.5 + (3/7)*37.5
rounded to 2 decimals, i.e. 166.07. -/
theorem spec_C8_fixed_hours (w : ℚ) (d : Int) :
    (w ≤ 0 ∨ d ≤ 0 → calculate_fixed_hours w d = 0)
  ∧ (0 < w → 0 < d →
      calculate_fixed_hours w d
        = round2 ((d.fdiv 7 : ℚ) * w + ((d.fmod 7 : ℚ) / 7) * w))
  ∧ calculate_fixed_hours (75/2) 31 = round2 (4 * (75/2) + (3/7) * (75/2))
  ∧ calculate_fixed_hours (75/2) 31 = 16607/100 := by
  have hconc : calculate_fixed_hours (75/2) 31 = 16607/100 := by
    have h7 : (31 : Int).fdiv 7 = 4 := by decide
    have h7b : (31 : Int).fmod 7 = 3 := by decide
    simp only [calculate_fixed_hours, h7, h7b]
    rw [if_neg (by norm_num)]
    norm_num
    rw [round2_eq_of_lt_half _ 16607 (by norm_num) (by norm_num)]
    norm_num
  refine ⟨?_, ?_, ?_, hconc⟩
  · intro h
    rw [calculate_fixed_hours, if_pos h]
  · intro hw hd
    rw [calculate_fixed_hours, if_neg (by push_neg; exact ⟨hw, hd⟩)]
  · rw [hconc, round2_eq_of_lt_half _ 16607 (by norm_num) (by norm_num)]
    norm_num

theorem spec_C8_witness :
    calculate_fixed_hours 0 31 = 0
  ∧ calculate_fixed_hours (75/2) 31
      = round2 (((31 : Int).fdiv 7 : ℚ) * (75/2) + (((31 : Int).fmod 7 : ℚ) / 7) * (75/2)) := by
  exact ⟨(spec_C8_fixed_hours 0 31).1 (Or.inl le_rfl),
         (spec_C8_fixed_hours (75/2) 31).2.1 (by norm_num) (by norm_num)⟩

theorem daysInMonth_ge_28 (y m : Int) : 28 ≤ daysInMonth y m := by
  rw [daysInMonth]
  split_ifs <;> norm_num

theorem mkDate_eq_some (y m d : Int) (h : validDate y m d) :
    mkDate y m d = some ⟨y, m, d⟩ := by
  rw [mkDate, if_pos h]

theorem gmpp_some (year month : Int) (hy1 : 1 ≤ year) (hm1 : 1 ≤ month)
    (hm2 : month ≤ 12) (hend : (if month = 12 then year + 1 else year) ≤ 9999) :
    get_monthly_payroll_period year month
      = some (⟨year, month, 11⟩,
              ⟨if month = 12 then year + 1 else year,
               if month = 12 then 1 else month + 1, 10⟩) := by
  have h28s := daysInMonth_ge_28 year month
  have hy2 : year ≤ 9999 := by split_ifs at hend <;> omega
  have hstart : validDate year month 11 :=
    ⟨hy1, hy2, hm1, hm2, by norm_num, by omega⟩
  by_cases hm : month = 12
  · subst hm
    rw [if_pos rfl] at hend
    have h28e := daysInMonth_ge_28 (year + 1) 1
    have hendv : validDate (year + 1) 1 10 :=
      ⟨by omega, hend, by norm_num, by norm_num, by norm_num, by omega⟩
    unfold get_monthly_payroll_period
    rw [mkDate_eq_some _ _ _ hstart]
    norm_num
    rw [mkDate_eq_some _ _ _ hendv]
  · rw [if_neg hm] at hend
    have h28e := daysInMonth_ge_28 year (month + 1)
    have hendv : validDate year (month + 1) 10 :=
      ⟨hy1, hend, by omega, by omega, by norm_num, by omega⟩
    unfold get_monthly_payroll_period
    rw [mkDate_eq_some _ _ _ hstart]
    simp only [if_neg hm]
    rw [mkDate_eq_some _ _ _ hendv]

/-- C10 counterexample: (year, month) = (9999, 12) is a valid
year/month pair for `datetime.date`, yet the period's end date would be
10 January of year 10000, above Python's MAXYEAR, so the constructor
raises and the function returns no period at all instead of a start
date with day 11 and an end date with day 10. -/
theorem spec_C10_counterexample :
    ((1 : Int) ≤ 9999 ∧ (9999 : Int) ≤ 9999 ∧ (1 : Int) ≤ 12 ∧ (12 : Int) ≤ 12)
  ∧ get_monthly_payroll_period 9999 12 = none := by
  constructor
  · norm_num
  · decide

/-- C10 (amended): for every valid (year, month) — 1 ≤ year ≤ 9999,
1 ≤ month ≤ 12 — except (9999, 12), where the end date's year 10000
exceeds MAXYEAR and the function reports an error returning no period,
get_monthly_payroll_period returns a start date with day 11 in that
month and an end date with day 10 in the next calendar month,
incrementing the year exactly when month = 12. -/
theorem spec_C10_period (year month : Int)
    (hy1 : 1 ≤ year) (hy2 : year ≤ 9999) (hm1 : 1 ≤ month) (hm2 : month ≤ 12)
    (hmax : ¬(year = 9999 ∧ month = 12)) :
    ∃ s e : Date, get_monthly_payroll_period year month = some (s, e)
      ∧ s.year = year ∧ s.month = month ∧ s.day = 11 ∧ e.day = 10
      ∧ ((month = 12 ∧ e.year = year + 1 ∧ e.month = 1)
         ∨ (month ≠ 12 ∧ e.year = year ∧ e.month = month + 1)) := by
  have hend : (if month = 12 then year + 1 else year) ≤ 9999 := by
    rw [not_and_or] at hmax
    split_ifs with h
    · rcases hmax with hy | hmm
      · omega
      · exact absurd h hmm
    · exact hy2
  refine ⟨_, _, gmpp_some year month hy1 hm1 hm2 hend, rfl, rfl, rfl, rfl, ?_⟩
  by_cases hm : month = 12
  · subst hm
    exact Or.inl ⟨rfl, by simp, by simp⟩
  · exact Or.inr ⟨hm, by simp [hm], by simp [hm]⟩

theorem spec_C10_witness : (get_monthly_payroll_period 2024 12).isSome = true := by
  obtain ⟨s, e, h, -, -, -, -, -⟩ :=
    spec_C10_period 2024 12 (by norm_num) (by norm_num) (by norm_num) (by norm_num)
      (by omega)
  rw [h]
  rfl

/-- C9 counterexample: today = date(1, 1, 1) — January of Python's
MINYEAR — is a valid date, yet get_default_payroll_period produces no
period at all (the target would be December of year 0, below MINYEAR),
so neither branch computes "the period ending on the 10th of the
current month" there. -/
theorem spec_C9_counterexample :
    validDate 1 1 1 ∧ get_default_payroll_period ⟨1, 1, 1⟩ = none := by
  exact ⟨by decide, by decide⟩

/-- C9 (amended): the two branches of get_default_payroll_period are
the identical function (the source bodies are textually equal), and for
every valid today outside January of year 1 (MINYEAR, where no
representable previous-month period exists and no period is returned)
the computed period starts on the 11th of the previous month, with year
decrement in January, and ends on the 10th of the current month. -/
theorem spec_C9_default_period (today : Date)
    (hvalid : validDate today.year today.month today.day)
    (hmin : ¬(today.year = 1 ∧ today.month = 1)) :
    defaultTargetBranchLe10 today = defaultTargetBranchGt10 today
  ∧ ∃ s e : Date, get_default_payroll_period today = some (s, e)
      ∧ s.day = 11 ∧ e.day = 10 ∧ e.year = today.year ∧ e.month = today.month
      ∧ ((today.month = 1 ∧ s.year = today.year - 1 ∧ s.month = 12)
         ∨ (today.month ≠ 1 ∧ s.year = today.year ∧ s.month = today.month - 1)) := by
  obtain ⟨hy1, hy2, hm1, hm2, -, -⟩ := hvalid
  refine ⟨rfl, ?_⟩
  have hbr : get_default_payroll_period today
      = get_monthly_payroll_period (defaultTargetBranchLe10 today).1
          (defaultTargetBranchLe10 today).2 := by
    unfold get_default_payroll_period
    split_ifs <;> rfl
  rw [not_and_or] at hmin
  by_cases hm : today.month = 1
  · have hy : today.year ≠ 1 := by
      rcases hmin with h | h
      · exact h
      · exact absurd hm h
    rw [hbr, defaultTargetBranchLe10, if_pos hm]
    have h := gmpp_some (today.year - 1) 12 (by omega) (by norm_num) (by norm_num)
      (by simp; omega)
    simp only [if_pos rfl] at h
    rw [h]
    exact ⟨_, _, rfl, rfl, rfl, by simp, by simp [hm], Or.inl ⟨hm, rfl, rfl⟩⟩
  · rw [hbr, defaultTargetBranchLe10, if_neg hm]
    have hm12 : ¬(today.month - 1 = 12) := by omega
    have h := gmpp_some today.year (today.month - 1) hy1 (by omega) (by omega)
      (by simp [hm12]; omega)
    simp only [if_neg hm12] at h
    rw [h]
    exact ⟨_, _, rfl, rfl, rfl, by simp, by simp, Or.inr ⟨hm, rfl, rfl⟩⟩

theorem spec_C9_witness : (get_default_payroll_period ⟨2024, 6, 15⟩).isSome = true := by
  obtain ⟨-, s, e, h, -, -, -, -, -⟩ :=
    spec_C9_default_period ⟨2024, 6, 15⟩ (by decide) (by decide)
  rw [h]
  rfl
end Payroll
